import Mathlib

/-!
Shallow embedding of the endgame-knowledge evaluator set of
Shatranj-Stockfish (`src/endgame.cpp`), together with proofs of the
specification's claims about it.

Squares are `Fin 64` (file = low three bits, rank = high three bits),
exactly the integer encoding the C++ code uses; C++ `Value` results
become `Int`.  Each evaluator's `Position` argument is embedded as a
record holding the squares the evaluator queries plus the side to move;
the strong side is an explicit `Color` parameter, as in the C++
`Endgame` object.  Bitwise square transforms (`sq ^ 7`, `~sq`) are kept
as `Nat.xor` with an explicit `% 64` reduction.
-/

namespace Shatranj

/-- A board square, 0 = A1 .. 63 = H8, as in the C++ `Square` enum. -/
abbrev Square := Fin 64

/-- The two piece colors; `white` is the first color (`WHITE = 0`). -/
inductive Color where
  | white : Color
  | black : Color
deriving DecidableEq

/-- The opposite color (`~c` on C++ `Color`). -/
def Color.other : Color → Color
  | .white => .black
  | .black => .white

/-- Numeric value of a color, as in the C++ enum (`WHITE = 0, BLACK = 1`). -/
def Color.toNat : Color → Nat
  | .white => 0
  | .black => 1

/-- `file_of(s)`: the file index 0..7 (low three bits of the square). -/
def fileOf (s : Square) : Nat := s.val % 8

/-- `rank_of(s)`: the rank index 0..7 (high three bits of the square). -/
def rankOf (s : Square) : Nat := s.val / 8

/-- Absolute difference of two naturals (used for file/rank distance). -/
def natDist (a b : Nat) : Nat := max a b - min a b

/-- `distance<Square>(a, b)`: Chebyshev (king) distance, the max of the
file distance and the rank distance. -/
def distance (a b : Square) : Nat :=
  max (natDist (fileOf a) (fileOf b)) (natDist (rankOf a) (rankOf b))

/-- `distance<File>(a, b)`: absolute file distance between two squares. -/
def fileDistance (a b : Square) : Nat := natDist (fileOf a) (fileOf b)

/-- Bitwise xor of a square with a mask, reduced mod 64 (the xor of two
values below 64 stays below 64, so the reduction never truncates; it only
keeps the definition well-typed). -/
def xorSq (s : Square) (m : Nat) : Square :=
  ⟨(s.val ^^^ m) % 64, Nat.mod_lt _ (by omega)⟩

/-- `relative_square(c, s) = s ^ (c * 56)`: the square from color `c`'s
point of view (rank-flipped for black). -/
def relativeSquare (c : Color) (s : Square) : Square :=
  xorSq s (c.toNat * 56)

/-- `relative_rank(c, s) = rank_of(s) ^ (c * 7)`: the rank of `s` from
color `c`'s point of view. -/
def relativeRank (c : Color) (s : Square) : Nat :=
  rankOf s ^^^ (c.toNat * 7)

/-- Membership of a square in the C++ `DarkSquares` bitboard
(`0xAA55AA55AA55AA55`): the squares whose file and rank indices have even
sum (A1, C1, ..., B2, D2, ...). -/
def isDark (s : Square) : Bool := (fileOf s + rankOf s) % 2 == 0

/-- Table driving the weak king towards the edge of the board
(`PushToEdges`, indexed by square). -/
def PushToEdges : Fin 64 → Int :=
  ![100, 90, 80, 70, 70, 80, 90, 100,
     90, 70, 60, 50, 50, 60, 70,  90,
     80, 60, 40, 30, 30, 40, 60,  80,
     70, 50, 30, 20, 20, 30, 50,  70,
     70, 50, 30, 20, 20, 30, 50,  70,
     80, 60, 40, 30, 30, 40, 60,  80,
     90, 70, 60, 50, 50, 60, 70,  90,
    100, 90, 80, 70, 70, 80, 90, 100]

/-- Table driving a piece towards another piece (`PushClose`, indexed by
distance 0..7). -/
def PushClose : Fin 8 → Int := ![0, 0, 100, 80, 60, 40, 20, 10]

/-- Table driving a piece away from another piece (`PushAway`, indexed by
distance 0..7). -/
def PushAway : Fin 8 → Int := ![0, 5, 20, 40, 60, 80, 90, 100]

/-- Pawn-rank based scaling factors used in the KRPPKRP endgame
(`KRPPKRPScaleFactors`, indexed by rank 0..7). -/
def KRPPKRPScaleFactors : Fin 8 → Int := ![0, 9, 10, 14, 21, 44, 0, 0]

/-- The Chebyshev distance of two squares is below 8. -/
theorem distance_lt_8 (a b : Square) : distance a b < 8 := by
  have ha := a.isLt
  have hb := b.isLt
  unfold distance natDist fileOf rankOf
  omega

/-- Chebyshev distance packaged as a table index. -/
def distFin (a b : Square) : Fin 8 := ⟨distance a b, distance_lt_8 a b⟩

/-- The relative rank of a square is below 8. -/
theorem relativeRank_lt_8 (c : Color) (s : Square) : relativeRank c s < 8 := by
  have h : rankOf s < 8 := by unfold rankOf; omega
  cases c with
  | white => simpa [relativeRank, Color.toNat] using h
  | black =>
      unfold relativeRank Color.toNat
      interval_cases h' : rankOf s <;> decide

/-- `normalize(pos, strongSide, sq)`: map `sq` as if `strongSide` is
white and strongSide's only pawn (on `pawnSq`) is on the left half of the
board.  If the pawn's file is E or beyond the square is mirrored
(`sq ^ 7`); if the strong side is black the square is then flipped to the
other color's point of view (`~sq = sq ^ 56`). -/
def normalize (pawnSq : Square) (strongSide : Color) (sq : Square) : Square :=
  let sq1 := if 4 ≤ fileOf pawnSq then xorSq sq 7 else sq
  if strongSide = .black then xorSq sq1 56 else sq1

/-- Applying the normalization transform twice gives back the original
square: each of the two conditional xors undoes itself. -/
theorem normalize_normalize (pawnSq : Square) (c : Color) (sq : Square) :
    normalize pawnSq c (normalize pawnSq c sq) = sq := by
  have hx : ∀ (s : Square) (m : Nat), m < 64 → xorSq (xorSq s m) m = s := by
    intro s m hm
    have hs := s.isLt
    have h1 : s.val ^^^ m < 64 := Nat.xor_lt_two_pow (n := 6) hs hm
    have h2 : (s.val ^^^ m) ^^^ m = s.val := by
      rw [Nat.xor_assoc, Nat.xor_self, Nat.xor_zero]
    simp [xorSq, Nat.mod_eq_of_lt h1, h2, Nat.mod_eq_of_lt hs]
  unfold normalize
  rcases Decidable.em (4 ≤ fileOf pawnSq) with hp | hp <;>
    rcases Decidable.em (c = Color.black) with hc | hc <;>
      simp only [hp, hc, if_true, if_false, if_pos, if_neg, not_false_iff]
  · -- both transforms applied: xor 7 then xor 56, then again
    have h7 : ∀ s : Square, xorSq (xorSq s 56) 7 = xorSq (xorSq s 7) 56 := by
      intro s
      have hs := s.isLt
      have h1 : s.val ^^^ 56 < 64 := Nat.xor_lt_two_pow (n := 6) hs (by omega)
      have h2 : s.val ^^^ 7 < 64 := Nat.xor_lt_two_pow (n := 6) hs (by omega)
      simp [xorSq, Nat.mod_eq_of_lt h1, Nat.mod_eq_of_lt h2,
        Nat.xor_assoc, Nat.xor_comm 56 7]
    rw [h7, hx _ 56 (by omega), hx _ 7 (by omega)]
  · rw [hx _ 7 (by omega)]
  · rw [hx _ 56 (by omega)]

/-- Modelled from the spec: the rook endgame-phase material value
(`RookValueEg`, from `types.h`, which is not part of the supplied
sources).  The spec names it only "rookEndgameValue"; no claim depends on
its numeric value, so a fixed concrete placeholder is used. -/
def RookValueEg : Int := 1258

/-- Modelled from the spec: the bishop endgame-phase material value
(`BishopValueEg`, from `types.h`, not in the supplied sources); numeric
value immaterial to the claims. -/
def BishopValueEg : Int := 830

/-- Modelled from the spec: the queen endgame-phase material value
(`QueenValueEg`, from `types.h`, not in the supplied sources); numeric
value immaterial to the claims. -/
def QueenValueEg : Int := 846

/-- Modelled from the spec: the fixed known-win bonus
(`VALUE_KNOWN_WIN`, from `types.h`, not in the supplied sources); a
large positive constant, numeric value immaterial to the claims. -/
def VALUE_KNOWN_WIN : Int := 10000

/-- Modelled from the spec: the "fully drawn" scale factor
(`SCALE_FACTOR_DRAW = 0`, from `types.h`, not in the supplied sources). -/
def SCALE_FACTOR_DRAW : Int := 0

/-- Modelled from the spec: the "no scaling" scale factor
(`SCALE_FACTOR_NONE = 64`, from `types.h`, not in the supplied sources). -/
def SCALE_FACTOR_NONE : Int := 64

/-- Modelled from the spec: the passed-pawn predicate of the external
`Position` collaborator (`pos.pawn_passed(c, s)`; `position.h` is not
part of the supplied sources).  In the KRPPKRP signature the side `~c`
has exactly one pawn, on `weakPawn`; the strong pawn on `s` is passed
when that pawn is not on the same or an adjacent file strictly ahead of
`s` from `c`'s point of view. -/
def pawnPassed (c : Color) (weakPawn s : Square) : Bool :=
  !(decide (fileDistance weakPawn s ≤ 1) &&
    decide (relativeRank c s < relativeRank c weakPawn))

/-- Position snapshot for the KR vs KP evaluator: the squares of the
pieces of the signature and the side to move. -/
structure PosKRKP where
  strongKing : Square
  strongRook : Square
  weakKing : Square
  weakPawn : Square
  sideToMove : Color

/-- `Endgame<KRKP>::operator()`: rook endgame value minus the king
distance between the strong king and the weak pawn, both taken from the
strong side's point of view, negated when the weak side is to move. -/
def evalKRKP (strongSide : Color) (pos : PosKRKP) : Int :=
  let wksq := relativeSquare strongSide pos.strongKing
  let psq := relativeSquare strongSide pos.weakPawn
  let result : Int := RookValueEg - distance wksq psq
  if strongSide = pos.sideToMove then result else -result

/-- Position snapshot for the KR vs KB evaluator. -/
structure PosKRKB where
  strongKing : Square
  strongRook : Square
  weakKing : Square
  weakBishop : Square
  sideToMove : Color

/-- `Endgame<KRKB>::operator()`. -/
def evalKRKB (strongSide : Color) (pos : PosKRKB) : Int :=
  let winnerKSq := pos.strongKing
  let loserKSq := pos.weakKing
  let result : Int := RookValueEg - BishopValueEg + PushToEdges loserKSq
      + PushClose (distFin winnerKSq loserKSq)
  if strongSide = pos.sideToMove then result else -result

/-- Position snapshot for the KR vs KN evaluator. -/
structure PosKRKN where
  strongKing : Square
  strongRook : Square
  weakKing : Square
  weakKnight : Square
  sideToMove : Color

/-- `Endgame<KRKN>::operator()`. -/
def evalKRKN (strongSide : Color) (pos : PosKRKN) : Int :=
  let bksq := pos.weakKing
  let bnsq := pos.weakKnight
  let result : Int := PushToEdges bksq + PushAway (distFin bksq bnsq)
  if strongSide = pos.sideToMove then result else -result

/-- Position snapshot for the KN vs KB evaluator. -/
structure PosKNKB where
  strongKing : Square
  strongKnight : Square
  weakKing : Square
  weakBishop : Square
  sideToMove : Color

/-- `Endgame<KNKB>::operator()`. -/
def evalKNKB (strongSide : Color) (pos : PosKNKB) : Int :=
  let result : Int := PushToEdges pos.weakBishop
      + PushClose (distFin pos.strongKing pos.weakBishop)
      + PushClose (distFin pos.strongKnight pos.weakBishop)
      + PushAway (distFin pos.weakKing pos.weakBishop)
  if strongSide = pos.sideToMove then result else -result

/-- Position snapshot for the KQ vs KP evaluator. -/
structure PosKQKP where
  strongKing : Square
  strongQueen : Square
  weakKing : Square
  weakPawn : Square
  sideToMove : Color

/-- `Endgame<KQKP>::operator()`. -/
def evalKQKP (strongSide : Color) (pos : PosKQKP) : Int :=
  let result : Int := QueenValueEg
      + PushClose (distFin pos.strongKing pos.weakPawn)
      + PushClose (distFin pos.strongKing pos.strongQueen)
  if strongSide = pos.sideToMove then result else -result

/-- Position snapshot for the KR vs KQ evaluator. -/
structure PosKRKQ where
  strongKing : Square
  strongRook : Square
  weakKing : Square
  weakQueen : Square
  sideToMove : Color

/-- `Endgame<KRKQ>::operator()`. -/
def evalKRKQ (strongSide : Color) (pos : PosKRKQ) : Int :=
  let result : Int := RookValueEg - QueenValueEg + PushToEdges pos.weakKing
      + PushClose (distFin pos.strongKing pos.weakKing)
  if strongSide = pos.sideToMove then result else -result

/-- Position snapshot for the KQQ vs KQ evaluator: both strong queens
are recorded since `pos.pieces(QUEEN)` collects every queen on the
board. -/
structure PosKQQKQ where
  strongKing : Square
  strongQueen1 : Square
  strongQueen2 : Square
  weakKing : Square
  weakQueen : Square
  sideToMove : Color

/-- `pos.pieces(QUEEN)`: all queens currently on the board. -/
def queensOf (pos : PosKQQKQ) : List Square :=
  [pos.strongQueen1, pos.strongQueen2, pos.weakQueen]

/-- The base sum of `Endgame<KQQKQ>::operator()` before the known-win
bonus is considered (`result` right after its initialisation). -/
def coreKQQKQ (pos : PosKQQKQ) : Int :=
  PushToEdges pos.weakQueen + PushToEdges pos.weakKing
    + PushClose (distFin pos.strongKing pos.weakQueen)
    + PushAway (distFin pos.weakKing pos.weakQueen)

/-- The bonus condition of `Endgame<KQQKQ>::operator()`:
`!(pos.pieces(QUEEN) & DarkSquares) || !(pos.pieces(QUEEN) & ~DarkSquares)`,
i.e. no queen on a dark square, or no queen on a light square. -/
def sameColorQueens (pos : PosKQQKQ) : Bool :=
  !((queensOf pos).any isDark) || !((queensOf pos).any fun s => !(isDark s))

/-- `Endgame<KQQKQ>::operator()`. -/
def evalKQQKQ (strongSide : Color) (pos : PosKQQKQ) : Int :=
  let result := coreKQQKQ pos
  let result := if sameColorQueens pos then result + VALUE_KNOWN_WIN else result
  if strongSide = pos.sideToMove then result else -result

/-- Position snapshot for the KP vs KP evaluator. -/
structure PosKPKP where
  strongKing : Square
  strongPawn : Square
  weakKing : Square
  weakPawn : Square
  sideToMove : Color

/-- `Endgame<KPKP>::operator()`: all four squares are normalized with
the strong side's pawn before the push-close terms are read. -/
def evalKPKP (strongSide : Color) (pos : PosKPKP) : Int :=
  let wksq := normalize pos.strongPawn strongSide pos.strongKing
  let bksq := normalize pos.strongPawn strongSide pos.weakKing
  let wpsq := normalize pos.strongPawn strongSide pos.strongPawn
  let bpsq := normalize pos.strongPawn strongSide pos.weakPawn
  let result : Int := PushClose (distFin wksq bpsq)
      - PushClose (distFin bksq wpsq)
  if strongSide = pos.sideToMove then result else -result

/-- Position snapshot for the KRP vs KR scaling evaluator. -/
structure PosKRPKR where
  strongKing : Square
  strongRook : Square
  strongPawn : Square
  weakKing : Square
  weakRook : Square
  sideToMove : Color

/-- `Endgame<KRPKR>::operator()`: the constant drawn scale factor. -/
def evalKRPKR (_strongSide : Color) (_pos : PosKRPKR) : Int :=
  SCALE_FACTOR_DRAW

/-- Position snapshot for the KRPP vs KRP scaling evaluator. -/
structure PosKRPPKRP where
  strongKing : Square
  strongRook : Square
  strongPawn1 : Square
  strongPawn2 : Square
  weakKing : Square
  weakRook : Square
  weakPawn : Square
  sideToMove : Color

/-- The rank `r` of `Endgame<KRPPKRP>::operator()`: the higher of the
two strong pawns' ranks from the strong side's point of view. -/
def krppkrpRank (strongSide : Color) (pos : PosKRPPKRP) : Nat :=
  max (relativeRank strongSide pos.strongPawn1)
      (relativeRank strongSide pos.strongPawn2)

/-- `krppkrpRank` is a valid rank index. -/
theorem krppkrpRank_lt_8 (c : Color) (pos : PosKRPPKRP) :
    krppkrpRank c pos < 8 := by
  unfold krppkrpRank
  have h1 := relativeRank_lt_8 c pos.strongPawn1
  have h2 := relativeRank_lt_8 c pos.strongPawn2
  omega

/-- `Endgame<KRPPKRP>::operator()`: no scaling when a strong pawn is
passed; otherwise the rank-table entry when the weak king blockades both
pawns from in front, else no scaling. -/
def evalKRPPKRP (strongSide : Color) (pos : PosKRPPKRP) : Int :=
  let wpsq1 := pos.strongPawn1
  let wpsq2 := pos.strongPawn2
  let bksq := pos.weakKing
  if pawnPassed strongSide pos.weakPawn wpsq1
      || pawnPassed strongSide pos.weakPawn wpsq2 then
    SCALE_FACTOR_NONE
  else
    let r := krppkrpRank strongSide pos
    if decide (fileDistance bksq wpsq1 ≤ 1)
        && decide (fileDistance bksq wpsq2 ≤ 1)
        && decide (r < relativeRank strongSide bksq) then
      KRPPKRPScaleFactors ⟨r, krppkrpRank_lt_8 strongSide pos⟩
    else
      SCALE_FACTOR_NONE

/-- Xor with the zero mask is the identity on squares. -/
theorem xorSq_zero (s : Square) : xorSq s 0 = s := by
  simp [xorSq, Nat.mod_eq_of_lt s.isLt]

/-- The file of a square is unchanged by the rank flip `sq ^ 56`. -/
theorem fileOf_xorSq56 : ∀ s : Square, fileOf (xorSq s 56) = fileOf s := by
  decide

/-- The rank flip `sq ^ 56` sends rank `r` to rank `7 - r`. -/
theorem rankOf_xorSq56 : ∀ s : Square, rankOf (xorSq s 56) = 7 - rankOf s := by
  decide

/-- The king distance is invariant under flipping both squares' ranks. -/
theorem distance_xorSq56 (a b : Square) :
    distance (xorSq a 56) (xorSq b 56) = distance a b := by
  have ha : rankOf a < 8 := by unfold rankOf; omega
  have hb : rankOf b < 8 := by unfold rankOf; omega
  unfold distance
  rw [fileOf_xorSq56, fileOf_xorSq56, rankOf_xorSq56, rankOf_xorSq56]
  unfold natDist
  omega

/-- The king distance of two squares seen from color `c`'s point of view
is the king distance of the original squares. -/
theorem distance_relativeSquare (c : Color) (a b : Square) :
    distance (relativeSquare c a) (relativeSquare c b) = distance a b := by
  cases c with
  | white => simp [relativeSquare, Color.toNat, xorSq_zero]
  | black =>
      show distance (xorSq a 56) (xorSq b 56) = distance a b
      exact distance_xorSq56 a b

/-- **C7.** For every position of the rook-versus-lone-pawn signature
with the strong side to move, the evaluator returns the rook endgame
constant minus the Chebyshev distance between the strong king and the
weak pawn; in particular at distance 1 it returns the rook endgame
constant minus 1, with no sign flip. -/
theorem krkp_value (c : Color) (pos : PosKRKP) (h : pos.sideToMove = c) :
    evalKRKP c pos = RookValueEg - distance pos.strongKing pos.weakPawn ∧
      (distance pos.strongKing pos.weakPawn = 1 →
        evalKRKP c pos = RookValueEg - 1) := by
  have hval : evalKRKP c pos
      = RookValueEg - distance pos.strongKing pos.weakPawn := by
    simp [evalKRKP, h, distance_relativeSquare]
  refine ⟨hval, fun h1 => ?_⟩
  rw [hval, h1]
  simp

/-- Concrete instance for `krkp_value`: strong king on A1, weak pawn on
B2 (distance 1), strong side (white) to move. -/
def posKRKPa1b2 : PosKRKP :=
  { strongKing := 0, strongRook := 63, weakKing := 32,
    weakPawn := 9, sideToMove := Color.white }

/-- Witness for `krkp_value` at a concrete distance-1 position. -/
theorem krkp_value_witness :
    evalKRKP Color.white posKRKPa1b2 = RookValueEg - 1 :=
  (krkp_value Color.white posKRKPa1b2 rfl).2 (by decide)

/-- **C8.** The rook-plus-pawn-versus-rook evaluator returns the same
constant drawn scale factor for every position: any two positions of the
signature (any piece placement, either strong side, either side to move)
yield equal results, and that result is the drawn scale factor. -/
theorem krpkr_constant (c1 c2 : Color) (p q : PosKRPKR) :
    evalKRPKR c1 p = evalKRPKR c2 q ∧ evalKRPKR c1 p = SCALE_FACTOR_DRAW :=
  ⟨rfl, rfl⟩

/-- **C4.** Side-to-move antisymmetry of every signed-score evaluator of
the catalog: for each of the eight score-producing evaluators and every
position, evaluating with the strong side to move yields exactly the
negation of evaluating the identical position with the other side to
move. -/
theorem eval_antisymmetric :
    (∀ (c : Color) (p : PosKRKP),
      evalKRKP c { p with sideToMove := c }
        = -evalKRKP c { p with sideToMove := c.other }) ∧
    (∀ (c : Color) (p : PosKRKB),
      evalKRKB c { p with sideToMove := c }
        = -evalKRKB c { p with sideToMove := c.other }) ∧
    (∀ (c : Color) (p : PosKRKN),
      evalKRKN c { p with sideToMove := c }
        = -evalKRKN c { p with sideToMove := c.other }) ∧
    (∀ (c : Color) (p : PosKNKB),
      evalKNKB c { p with sideToMove := c }
        = -evalKNKB c { p with sideToMove := c.other }) ∧
    (∀ (c : Color) (p : PosKQKP),
      evalKQKP c { p with sideToMove := c }
        = -evalKQKP c { p with sideToMove := c.other }) ∧
    (∀ (c : Color) (p : PosKRKQ),
      evalKRKQ c { p with sideToMove := c }
        = -evalKRKQ c { p with sideToMove := c.other }) ∧
    (∀ (c : Color) (p : PosKQQKQ),
      evalKQQKQ c { p with sideToMove := c }
        = -evalKQQKQ c { p with sideToMove := c.other }) ∧
    (∀ (c : Color) (p : PosKPKP),
      evalKPKP c { p with sideToMove := c }
        = -evalKPKP c { p with sideToMove := c.other }) := by
  refine ⟨?_, ?_, ?_, ?_, ?_, ?_, ?_, ?_⟩ <;>
    intro c p <;> cases c <;>
      simp [evalKRKP, evalKRKB, evalKRKN, evalKNKB, evalKQKP, evalKRKQ,
        evalKQQKQ, evalKPKP, coreKQQKQ, sameColorQueens, queensOf,
        Color.other]

/-- Stated from the claim's words: the queens currently on the board
(both sides combined) span both square-color classes, i.e. at least one
stands on a dark square and at least one on a light square. -/
def spansBothColors (pos : PosKQQKQ) : Bool :=
  ((queensOf pos).any isDark) && ((queensOf pos).any fun s => !(isDark s))

/-- The code's bonus condition is the negation of the claim's spanning
condition: the board's queens are single-colored iff they do not span
both color classes. -/
theorem sameColorQueens_eq_not_spans (pos : PosKQQKQ) :
    sameColorQueens pos = !(spansBothColors pos) := by
  simp [sameColorQueens, spansBothColors, Bool.not_and]

/-- A KQQKQ position whose three queens (A1, C1, E1) all stand on dark
squares; white is the strong side and is to move. -/
def posKQQKQdark : PosKQQKQ :=
  { strongKing := 28, strongQueen1 := 0, strongQueen2 := 2,
    weakKing := 56, weakQueen := 4, sideToMove := Color.white }

/-- A KQQKQ position whose queens (A1, B1, E1) span both color classes;
white is the strong side and is to move. -/
def posKQQKQspan : PosKQQKQ :=
  { strongKing := 28, strongQueen1 := 0, strongQueen2 := 1,
    weakKing := 56, weakQueen := 4, sideToMove := Color.white }

/-- **C1, counterexample.** The claim is false on the code: when all
three queens occupy a single square-color class the evaluator adds the
known-win bonus (the claim predicts none), and when the queens span both
classes it adds no bonus (the claim predicts the bonus). -/
theorem kqqkq_bonus_counterexample :
    spansBothColors posKQQKQdark = false ∧
      evalKQQKQ Color.white posKQQKQdark
        = coreKQQKQ posKQQKQdark + VALUE_KNOWN_WIN ∧
      spansBothColors posKQQKQspan = true ∧
      evalKQQKQ Color.white posKQQKQspan = coreKQQKQ posKQQKQspan := by
  refine ⟨by decide, by decide, by decide, by decide⟩

/-- **C1, amended.** With the strong side to move, the evaluator adds
the fixed known-win bonus to the base sum exactly when the queens
currently on the board (both sides combined) occupy a single
square-color class, and adds no bonus when they span both classes; the
condition inspects every queen on the board, not only the strong side's
pair. -/
theorem kqqkq_bonus (c : Color) (pos : PosKQQKQ) (h : pos.sideToMove = c) :
    evalKQQKQ c pos
      = coreKQQKQ pos
        + (if spansBothColors pos then 0 else VALUE_KNOWN_WIN) := by
  have hb := sameColorQueens_eq_not_spans pos
  cases hs : spansBothColors pos <;> simp [evalKQQKQ, h, hb, hs]

/-- Witness for `kqqkq_bonus` at a concrete all-dark-queens position. -/
theorem kqqkq_bonus_witness :
    evalKQQKQ Color.white posKQQKQdark
      = coreKQQKQ posKQQKQdark + VALUE_KNOWN_WIN := by
  have h := kqqkq_bonus Color.white posKQQKQdark rfl
  rwa [if_neg (by decide)] at h

/-- **C2, counterexample.** Normalization is not idempotent: with the
strong side's pawn on E2 (right half of the board, so the mirroring
transform is active), re-normalizing the already-normalized square A1
does not return it unchanged (`normalize A1 = H1` but
`normalize H1 = A1`). -/
theorem normalize_not_idempotent :
    normalize 12 Color.white (normalize 12 Color.white 0)
      ≠ normalize 12 Color.white 0 := by decide

/-- **C2, amended.** For every pawn placement of the strong side's sole
pawn, every strong side and every square, applying `normalize` a second
time returns the original input square (the transform is self-inverse);
it leaves the normalized square unchanged only when the transform is the
identity. -/
theorem normalize_double (pawnSq : Square) (c : Color) (sq : Square) :
    normalize pawnSq c (normalize pawnSq c sq) = sq :=
  normalize_normalize pawnSq c sq

/-- **C10.** For every position with exactly one strong-side pawn and
every strong side, `normalize` is an involution on squares: applying it
twice returns the original input square. -/
theorem normalize_involutive (pawnSq : Square) (c : Color) :
    Function.Involutive (normalize pawnSq c) := fun sq =>
  normalize_normalize pawnSq c sq

/-- Stated from the spec's words: the mirror across the board's vertical
center line, sending file `f` to file `7 - f` on the same rank. -/
def mirrorAcrossCenter (s : Square) : Square :=
  ⟨8 * rankOf s + (7 - fileOf s), by
    have := s.isLt
    simp only [rankOf, fileOf]
    omega⟩

/-- Stated from the spec's words: the reflection of a square to the
opposite color's perspective, sending rank `r` to rank `7 - r` on the
same file (the spec's "point-reflected to the opposite color's
perspective"; per spec §3 the by-color mirror image, i.e. the square as
seen from the other color's side). -/
def oppositePerspective (s : Square) : Square :=
  ⟨8 * (7 - rankOf s) + fileOf s, by
    have := s.isLt
    simp only [rankOf, fileOf]
    omega⟩

/-- Stated from the spec's words (§4.2): if the strong side's pawn lies
on the board's right half (files E–H), every queried square is mirrored
across the vertical center line; if the strong side is the second color
(black), every queried square is additionally reflected to the opposite
color's perspective. -/
def normalizeSpec (pawnSq : Square) (strongSide : Color) (sq : Square) :
    Square :=
  let sq1 := if 4 ≤ fileOf pawnSq then mirrorAcrossCenter sq else sq
  if strongSide = .black then oppositePerspective sq1 else sq1

/-- The code's `sq ^ 7` is the spec's mirror across the vertical center
line. -/
theorem xorSq7_eq_mirror : ∀ s : Square, xorSq s 7 = mirrorAcrossCenter s := by
  decide

/-- The code's `~sq = sq ^ 56` is the spec's reflection to the opposite
color's perspective. -/
theorem xorSq56_eq_flip : ∀ s : Square, xorSq s 56 = oppositePerspective s := by
  decide

/-- **C9.** For every pawn placement, strong side and square, the code's
`normalize` applies exactly the transform the spec describes. -/
theorem normalize_matches_spec (pawnSq : Square) (c : Color) (sq : Square) :
    normalize pawnSq c sq = normalizeSpec pawnSq c sq := by
  simp only [normalize, normalizeSpec, xorSq7_eq_mirror, xorSq56_eq_flip]

/-- **C3, counterexample.** The push-close table is not "large at
distances 0 and 1, decaying to 0 at distance 7": its entries at
distances 0 and 1 are 0, and its entry at distance 7 is 10, not 0. -/
theorem pushClose_shape_counterexample :
    PushClose 0 = 0 ∧ PushClose 1 = 0 ∧ PushClose 7 = 10 ∧ PushClose 7 ≠ 0 := by
  decide

/-- **C3, amended.** The push-close heuristic table has 8 entries
indexed by king distance 0–7; its entries at distances 0 and 1 are 0,
its entry at distance 2 is the maximum, 100, and from distance 2 onward
it decays monotonically down to 10 at distance 7. -/
theorem pushClose_shape :
    PushClose 0 = 0 ∧ PushClose 1 = 0 ∧ PushClose 2 = 100 ∧
      PushClose 7 = 10 ∧
      (∀ i j : Fin 8, 2 ≤ i → i ≤ j → PushClose j ≤ PushClose i) := by
  decide

/-- Witness for `pushClose_shape`: its monotone-decay clause applied at
distances 2 and 7. -/
theorem pushClose_shape_witness : PushClose 7 ≤ PushClose 2 :=
  pushClose_shape.2.2.2.2 2 7 (by decide) (by decide)

/-- A strong pawn is not passed exactly when the weak pawn is within one
file of it and strictly ahead of it from the strong side's point of
view. -/
theorem pawnPassed_false_iff (c : Color) (wp s : Square) :
    pawnPassed c wp s = false ↔
      fileDistance wp s ≤ 1 ∧ relativeRank c s < relativeRank c wp := by
  simp [pawnPassed]

/-- **C5.** The KRPP vs KRP scaling rule: a passed strong pawn gives the
no-scaling value; otherwise, with `r` the higher of the two strong
pawns' relative ranks, the scale-table entry for `r` is returned exactly
when the weak king is within one file of both strong pawns and its
relative rank exceeds `r`, and the no-scaling value in every other
case. -/
theorem krppkrp_rule (c : Color) (pos : PosKRPPKRP) :
    ((pawnPassed c pos.weakPawn pos.strongPawn1 = true ∨
        pawnPassed c pos.weakPawn pos.strongPawn2 = true) →
      evalKRPPKRP c pos = SCALE_FACTOR_NONE) ∧
    (pawnPassed c pos.weakPawn pos.strongPawn1 = false →
      pawnPassed c pos.weakPawn pos.strongPawn2 = false →
      ((fileDistance pos.weakKing pos.strongPawn1 ≤ 1 ∧
          fileDistance pos.weakKing pos.strongPawn2 ≤ 1 ∧
          krppkrpRank c pos < relativeRank c pos.weakKing) →
        evalKRPPKRP c pos
          = KRPPKRPScaleFactors ⟨krppkrpRank c pos, krppkrpRank_lt_8 c pos⟩) ∧
      (¬(fileDistance pos.weakKing pos.strongPawn1 ≤ 1 ∧
          fileDistance pos.weakKing pos.strongPawn2 ≤ 1 ∧
          krppkrpRank c pos < relativeRank c pos.weakKing) →
        evalKRPPKRP c pos = SCALE_FACTOR_NONE)) := by
  constructor
  · intro h
    rcases h with h | h <;> simp [evalKRPPKRP, h]
  · intro h1 h2
    constructor
    · rintro ⟨ha, hb, hc⟩
      simp [evalKRPPKRP, h1, h2, ha, hb, hc]
    · intro hc
      simp only [evalKRPPKRP, h1, h2, Bool.or_self, Bool.false_eq_true,
        if_false, Bool.and_eq_true, decide_eq_true_eq, and_assoc]
      rw [if_neg hc]

/-- A KRPPKRP position with the strong pawns on B4 and C5 and the weak
pawn far away on H7, so both strong pawns are passed; white is strong. -/
def posKRPPKRPpassed : PosKRPPKRP :=
  { strongKing := 4, strongRook := 7, strongPawn1 := 25, strongPawn2 := 34,
    weakKing := 41, weakRook := 60, weakPawn := 55,
    sideToMove := Color.white }

/-- A KRPPKRP position with the strong pawns on B4 and C5, the weak pawn
on C6 (blocking both, so neither strong pawn is passed) and the weak
king on B6, within one file of both pawns and ahead of the higher one
(relative rank 5 > r = 4); white is strong. -/
def posKRPPKRPblock : PosKRPPKRP :=
  { strongKing := 4, strongRook := 7, strongPawn1 := 25, strongPawn2 := 34,
    weakKing := 41, weakRook := 60, weakPawn := 42,
    sideToMove := Color.white }

/-- Witness for `krppkrp_rule`: a passed-pawn position yields no
scaling, and a blockaded position yields the table entry for rank
`r = 4`, which is 21. -/
theorem krppkrp_rule_witness :
    evalKRPPKRP Color.white posKRPPKRPpassed = SCALE_FACTOR_NONE ∧
      evalKRPPKRP Color.white posKRPPKRPblock = 21 := by
  constructor
  · exact (krppkrp_rule Color.white posKRPPKRPpassed).1 (Or.inl (by decide))
  · have h := ((krppkrp_rule Color.white posKRPPKRPblock).2
      (by decide) (by decide)).1 (by decide)
    exact h.trans (by decide)

/-- Xor with 7 below 8 is subtraction from 7. -/
theorem xor7_of_lt_8 : ∀ n < 8, n ^^^ 7 = 7 - n := by decide

/-- A square on one of the middle six ranks stays on the middle six
ranks from either color's point of view. -/
theorem relativeRank_bounds (c : Color) (s : Square)
    (h1 : 1 ≤ rankOf s) (h2 : rankOf s ≤ 6) :
    1 ≤ relativeRank c s ∧ relativeRank c s ≤ 6 := by
  have h8 : rankOf s < 8 := by unfold rankOf; omega
  cases c with
  | white => simpa [relativeRank, Color.toNat] using ⟨h1, h2⟩
  | black =>
      unfold relativeRank Color.toNat
      rw [Nat.one_mul, xor7_of_lt_8 (rankOf s) h8]
      omega

/-- **C6.** Whenever the scale-table branch of the KRPP vs KRP evaluator
is taken (no strong passed pawn, weak king within one file of both
strong pawns, weak king's relative rank exceeding `r`) in a position
whose pawns stand on the middle six ranks (ranks 2–7, the only ranks a
pawn can legally occupy), the rank `r` is strictly between the first and
the last rank, so the in-function assertion holds and only the scale
table entries for ranks 2–6 are read. -/
theorem krppkrp_rank_safe (c : Color) (pos : PosKRPPKRP)
    (hp1 : 1 ≤ rankOf pos.strongPawn1 ∧ rankOf pos.strongPawn1 ≤ 6)
    (hp2 : 1 ≤ rankOf pos.strongPawn2 ∧ rankOf pos.strongPawn2 ≤ 6)
    (hbp : 1 ≤ rankOf pos.weakPawn ∧ rankOf pos.weakPawn ≤ 6)
    (h1 : pawnPassed c pos.weakPawn pos.strongPawn1 = false)
    (h2 : pawnPassed c pos.weakPawn pos.strongPawn2 = false)
    (hk1 : fileDistance pos.weakKing pos.strongPawn1 ≤ 1)
    (hk2 : fileDistance pos.weakKing pos.strongPawn2 ≤ 1)
    (hkr : krppkrpRank c pos < relativeRank c pos.weakKing) :
    0 < krppkrpRank c pos ∧ krppkrpRank c pos < 6 ∧
      evalKRPPKRP c pos
        = KRPPKRPScaleFactors ⟨krppkrpRank c pos, krppkrpRank_lt_8 c pos⟩ := by
  have hb1 := (pawnPassed_false_iff c pos.weakPawn pos.strongPawn1).1 h1
  have hb2 := (pawnPassed_false_iff c pos.weakPawn pos.strongPawn2).1 h2
  have hw := relativeRank_bounds c pos.weakPawn hbp.1 hbp.2
  have hr1 := relativeRank_bounds c pos.strongPawn1 hp1.1 hp1.2
  have hr2 := relativeRank_bounds c pos.strongPawn2 hp2.1 hp2.2
  refine ⟨?_, ?_, ?_⟩
  · unfold krppkrpRank
    omega
  · have := hb1.2
    have := hb2.2
    unfold krppkrpRank at hkr ⊢
    omega
  · simp [evalKRPPKRP, h1, h2, hk1, hk2, hkr]

/-- Witness for `krppkrp_rank_safe` at the concrete blockade position:
there `r = 4`, which lies strictly between the first and last ranks. -/
theorem krppkrp_rank_safe_witness :
    0 < krppkrpRank Color.white posKRPPKRPblock ∧
      krppkrpRank Color.white posKRPPKRPblock < 6 ∧
      evalKRPPKRP Color.white posKRPPKRPblock
        = KRPPKRPScaleFactors
            ⟨krppkrpRank Color.white posKRPPKRPblock,
              krppkrpRank_lt_8 Color.white posKRPPKRPblock⟩ :=
  krppkrp_rank_safe Color.white posKRPPKRPblock (by decide) (by decide)
    (by decide) (by decide) (by decide) (by decide) (by decide) (by decide)

end Shatranj
